import Mathlib

/-!
# Verification development for `01. Introduction/example.cpp`

The translation unit has two functions: the helper `getSum` and `main`.

* Values of the C++ type `int` are modelled as integers together with the
  range predicate `isInt` (the 32-bit signed range).  Signed arithmetic
  whose mathematical result is not representable has no defined result, so the
  arithmetic operations return an `Option`.
* `main` is modelled as a transition system over an explicit `State`: one
  program point (`Loc`) per executed statement of the source, the local
  variables, the lines written to standard output, and a log of the array
  reads.
* An array read outside `0..4` has no defined value in the source language.
  The model follows the view taken by the specification: such a read yields
  an arbitrary value, given by the environment function `oob` (indexed by the
  number of array reads performed before it), and execution continues.
-/

namespace Example

/-! ## The type `int` -/

/-- Smallest value of the 32-bit signed type `int`. -/
def INT_MIN : Int := -2147483648

/-- Largest value of the 32-bit signed type `int`. -/
def INT_MAX : Int := 2147483647

/-- Representability of an integer in the type `int`. -/
def isInt (z : Int) : Prop := INT_MIN ≤ z ∧ z ≤ INT_MAX

instance (z : Int) : Decidable (isInt z) := by
  unfold isInt
  infer_instance

/-- Signed `a + b` on `int`: defined when the mathematical sum is representable. -/
def addInt (a b : Int) : Option Int :=
  if isInt (a + b) then some (a + b) else none

/-- Signed `a - b` on `int`: defined when the mathematical difference is representable. -/
def subInt (a b : Int) : Option Int :=
  if isInt (a - b) then some (a - b) else none

/-- Signed `a / b` on `int` (truncating): undefined for a zero divisor and when
the quotient is not representable. -/
def divInt (a b : Int) : Option Int :=
  if b = 0 then none
  else if isInt (Int.tdiv a b) then some (Int.tdiv a b) else none

/-! ## `getSum` (source lines 6-8) -/

/-- The helper `int getSum(int a, int b) { return a + b; }`. -/
def getSum (a b : Int) : Option Int :=
  addInt a b

/-! ## `main` (source lines 10-69) -/

/-- One line written to standard output by `cout << ... << endl`. -/
inductive Line where
  | num (z : Int)
  | text (s : String)
  deriving DecidableEq

/-- Program points of `main`, one per executed statement, in source order. -/
inductive Loc where
  /-- Line 26: `int b = 5;` -/
  | declB
  /-- Line 27: `cout << b << endl;` -/
  | printB
  /-- Line 32: `int v[5] = {1, 2, 3, 4, 5};` -/
  | declV
  /-- Line 33: `cout << v[5] << endl;` -/
  | printV5
  /-- Line 36: `int i = 5;` -/
  | declI
  /-- Line 37: `cout << v[i] << endl;` -/
  | printVi
  /-- Line 39: `i = 0` -/
  | for1Init
  /-- Line 39: `i < 5` -/
  | for1Test
  /-- Line 40: `i += 10;` -/
  | for1Body
  /-- Line 41: `cout << v[i] << endl;` -/
  | for1Read
  /-- Line 39: `i++` -/
  | for1Incr
  /-- Line 44: `int x = 3;` -/
  | declX
  /-- Line 45: `x -= 3;` -/
  | subX
  /-- Line 46: the commented-out `cout << 3 / x << endl;` -/
  | divX
  /-- Line 60: `int n = 0;` -/
  | declN
  /-- Line 61: `i = 1` -/
  | for2Init
  /-- Line 61: `i <= 3` -/
  | for2Test
  /-- Line 62: `n += getSum(0, i);` -/
  | for2Add
  /-- Line 63: `if (i == 3)` -/
  | for2If
  /-- Line 64: `cout << "end of \"for\"" << endl;` -/
  | for2Print
  /-- Line 61: `i++` -/
  | for2Incr
  /-- Line 66: `cout << n << endl;` -/
  | printN
  /-- Line 68: `return 0;` -/
  | ret
  /-- After the return statement: `main` has returned. -/
  | halted
  deriving DecidableEq

/-- The state of an execution of `main`. A local variable holds `0` (the array:
the empty list) until its declaration is executed; the source never reads a
variable before that point. -/
structure State where
  /-- Next statement to execute. -/
  pc : Loc
  b : Int
  v : List Int
  i : Int
  x : Int
  n : Int
  /-- Lines written to standard output so far, oldest first. -/
  out : List Line
  /-- Log of the array reads so far, oldest first: the index used and the
  result of the total index operation at that index. -/
  reads : List (Int × Option Int)
  /-- Number of integer divisions executed so far. -/
  divs : Nat
  /-- Exit status, once `main` has returned. -/
  exit : Option Int
  deriving DecidableEq

/-- State on entry to `main`. -/
def init : State :=
  { pc := Loc.declB, b := 0, v := [], i := 0, x := 0, n := 0,
    out := [], reads := [], divs := 0, exit := none }

/-- Total index operation on the array: the element at index `k` when `k` is a
valid index, nothing otherwise. -/
def index (v : List Int) (k : Int) : Option Int :=
  if 0 ≤ k then v[k.toNat]? else none

/-- The statement `cout << v[k] << endl;`. The read is logged; a read at a valid
index yields the element, any other read yields the value `oob r`, where `r` is
the number of array reads performed before this one. -/
def printElem (oob : Nat → Int) (s : State) (k : Int) : State :=
  let val := match index s.v k with
    | some e => e
    | none => oob s.reads.length
  { s with out := s.out ++ [Line.num val], reads := s.reads ++ [(k, index s.v k)] }

/-- One statement of `main`. The result is `none` when `main` has returned and
when a signed operation has no defined result. The flag `divOn` says whether
the statement of line 46 is compiled in; the source has it commented out, so
the program as written is `divOn = false`. -/
def step (divOn : Bool) (oob : Nat → Int) (s : State) : Option State :=
  match s.pc with
  | Loc.declB => some { s with b := 5, pc := Loc.printB }
  | Loc.printB => some { s with out := s.out ++ [Line.num s.b], pc := Loc.declV }
  | Loc.declV => some { s with v := [1, 2, 3, 4, 5], pc := Loc.printV5 }
  | Loc.printV5 => some { printElem oob s 5 with pc := Loc.declI }
  | Loc.declI => some { s with i := 5, pc := Loc.printVi }
  | Loc.printVi => some { printElem oob s s.i with pc := Loc.for1Init }
  | Loc.for1Init => some { s with i := 0, pc := Loc.for1Test }
  | Loc.for1Test => some { s with pc := if s.i < 5 then Loc.for1Body else Loc.declX }
  | Loc.for1Body => (addInt s.i 10).map fun r => { s with i := r, pc := Loc.for1Read }
  | Loc.for1Read => some { printElem oob s s.i with pc := Loc.for1Incr }
  | Loc.for1Incr => (addInt s.i 1).map fun r => { s with i := r, pc := Loc.for1Test }
  | Loc.declX => some { s with x := 3, pc := Loc.subX }
  | Loc.subX => (subInt s.x 3).map fun r => { s with x := r, pc := Loc.divX }
  | Loc.divX =>
    if divOn then
      (divInt 3 s.x).map fun q =>
        { s with out := s.out ++ [Line.num q], divs := s.divs + 1, pc := Loc.declN }
    else some { s with pc := Loc.declN }
  | Loc.declN => some { s with n := 0, pc := Loc.for2Init }
  | Loc.for2Init => some { s with i := 1, pc := Loc.for2Test }
  | Loc.for2Test => some { s with pc := if s.i ≤ 3 then Loc.for2Add else Loc.printN }
  | Loc.for2Add =>
    (getSum 0 s.i).bind fun g =>
      (addInt s.n g).map fun r => { s with n := r, pc := Loc.for2If }
  | Loc.for2If => some { s with pc := if s.i = 3 then Loc.for2Print else Loc.for2Incr }
  | Loc.for2Print =>
    some { s with out := s.out ++ [Line.text "end of \"for\""], pc := Loc.for2Incr }
  | Loc.for2Incr => (addInt s.i 1).map fun r => { s with i := r, pc := Loc.for2Test }
  | Loc.printN => some { s with out := s.out ++ [Line.num s.n], pc := Loc.ret }
  | Loc.ret => some { s with exit := some 0, pc := Loc.halted }
  | Loc.halted => none

/-- The states visited from `s`, in order, executing at most `fuel` statements. -/
def trace (divOn : Bool) (oob : Nat → Int) : Nat → State → List State
  | 0, s => [s]
  | fuel + 1, s =>
    match step divOn oob s with
    | none => [s]
    | some t => s :: trace divOn oob fuel t

/-- The state reached from `s` after at most `fuel` statements. -/
def run (divOn : Bool) (oob : Nat → Int) : Nat → State → State
  | 0, s => s
  | fuel + 1, s =>
    match step divOn oob s with
    | none => s
    | some t => run divOn oob fuel t

/-- The execution of `main` as written (line 46 commented out). -/
def mainTrace (oob : Nat → Int) (fuel : Nat) : List State :=
  trace false oob fuel init

/-- The state `main` as written reaches within `fuel` statements. -/
def mainRun (oob : Nat → Int) (fuel : Nat) : State :=
  run false oob fuel init

/-- The states of a trace that are at program point `l`. -/
def visits (l : Loc) (tr : List State) : List State :=
  tr.filter fun s => decide (s.pc = l)

/-- The array has been declared at state `s`. -/
def declaredV (s : State) : Prop :=
  s.pc ≠ Loc.declB ∧ s.pc ≠ Loc.printB ∧ s.pc ≠ Loc.declV

instance (s : State) : Decidable (declaredV s) := by
  unfold declaredV
  infer_instance

/-- A logged array read is at a valid index of the 5-element array. -/
def validRead (r : Int × Option Int) : Prop :=
  0 ≤ r.1 ∧ r.1 ≤ 4

instance (r : Int × Option Int) : Decidable (validRead r) := by
  unfold validRead
  infer_instance

/-- A sample environment for concrete runs: the out-of-bounds read number `r`
yields `r + 7`. -/
def oobSample : Nat → Int :=
  fun r => (r : Int) + 7

/-! ## General facts about the transition system -/

/-- Once the machine cannot move, more fuel changes neither the trace nor the
final state. -/
theorem trace_run_stable (divOn : Bool) (oob : Nat → Int) :
    ∀ (a b : Nat) (s : State), step divOn oob (run divOn oob a s) = none →
      trace divOn oob (a + b) s = trace divOn oob a s ∧
      run divOn oob (a + b) s = run divOn oob a s := by
  intro a
  induction a with
  | zero =>
    intro b s h
    cases b with
    | zero => exact ⟨rfl, rfl⟩
    | succ b =>
      have h0 : step divOn oob s = none := h
      simp [trace, run, h0]
  | succ a ih =>
    intro b s h
    have e : a + 1 + b = (a + b) + 1 := by omega
    rw [e]
    cases hs : step divOn oob s with
    | none => simp [trace, run, hs]
    | some t =>
      have h1 : step divOn oob (run divOn oob a t) = none := by
        simpa [run, hs] using h
      obtain ⟨h2, h3⟩ := ih b t h1
      simp [trace, run, hs, h2, h3]

/-- A property preserved by every statement holds at every visited state. -/
theorem trace_invariant (divOn : Bool) (oob : Nat → Int) (P : State → Prop)
    (hstep : ∀ s t, P s → step divOn oob s = some t → P t) :
    ∀ (fuel : Nat) (s0 : State), P s0 → ∀ s ∈ trace divOn oob fuel s0, P s := by
  intro fuel
  induction fuel with
  | zero =>
    intro s0 h0 s hs
    simp [trace] at hs
    exact hs ▸ h0
  | succ fuel ih =>
    intro s0 h0 s hs
    cases hst : step divOn oob s0 with
    | none =>
      simp [trace, hst] at hs
      exact hs ▸ h0
    | some t =>
      simp [trace, hst] at hs
      rcases hs with rfl | hs
      · exact h0
      · exact ih t (hstep s0 t h0 hst) s hs

/-- After 33 statements `main` has returned. -/
theorem main_step_halted (oob : Nat → Int) :
    step false oob (run false oob 33 init) = none := rfl

/-- With at least 33 units of fuel the trace of `main` is its complete trace. -/
theorem mainTrace_fuel (oob : Nat → Int) (fuel : Nat) (h : 33 ≤ fuel) :
    mainTrace oob fuel = mainTrace oob 33 := by
  obtain ⟨k, rfl⟩ : ∃ k, fuel = 33 + k := ⟨fuel - 33, by omega⟩
  exact (trace_run_stable false oob 33 k init (main_step_halted oob)).1

/-- With at least 33 units of fuel `main` reaches its final state. -/
theorem mainRun_fuel (oob : Nat → Int) (fuel : Nat) (h : 33 ≤ fuel) :
    mainRun oob fuel = mainRun oob 33 := by
  obtain ⟨k, rfl⟩ : ∃ k, fuel = 33 + k := ⟨fuel - 33, by omega⟩
  exact (trace_run_stable false oob 33 k init (main_step_halted oob)).2

/-! ## `getSum` -/

/-- C1 (counterexample): the `int` values `INT_MAX` and `1` are a pair on which
`getSum` does not return the sum: the sum `2147483648` is not a value of `int`
and the signed addition has no defined result. -/
theorem getSum_int_max_one :
    isInt INT_MAX ∧ isInt 1 ∧ getSum INT_MAX 1 = none ∧
      getSum INT_MAX 1 ≠ some (INT_MAX + 1) := by
  decide

/-- C1 (amended): for every pair of `int` values `a` and `b` whose sum is
representable in `int`, `getSum a b` returns exactly `a + b`; the result is a
function of `a` and `b` alone. -/
theorem getSum_eq_sum (a b : Int) (_ha : isInt a) (_hb : isInt b)
    (hab : isInt (a + b)) : getSum a b = some (a + b) := by
  simp [getSum, addInt, hab]

/-- Concrete instance of the amended C1 property, at `a = -7` and `b = 12`. -/
theorem getSum_eq_sum_witness :
    isInt (-7) ∧ isInt 12 ∧ isInt (-7 + 12) ∧ getSum (-7) 12 = some (-7 + 12) :=
  ⟨by decide, by decide, by decide,
    getSum_eq_sum (-7) 12 (by decide) (by decide) (by decide)⟩

/-- C3 (counterexample): `INT_MIN` and `-1` are both values of `int`, their
mathematical sum lies outside the range of `int`, and `getSum` has no defined
result on them. -/
theorem getSum_int_min_neg_one :
    isInt INT_MIN ∧ isInt (-1) ∧ ¬ isInt (INT_MIN + -1) ∧
      getSum INT_MIN (-1) = none := by
  decide

/-- C3 (amended): for every pair of `int` values `a` and `b`, the mathematical
sum lies between `-4294967296` and `4294967294`; `getSum a b` returns the
mathematical sum exactly when that sum lies within the range of `int`, and has
no defined result (the addition overflows) otherwise. -/
theorem getSum_defined_iff (a b : Int) (ha : isInt a) (hb : isInt b) :
    (-4294967296 ≤ a + b ∧ a + b ≤ 4294967294) ∧
      (getSum a b = some (a + b) ↔ isInt (a + b)) ∧
      (¬ isInt (a + b) → getSum a b = none) := by
  unfold isInt INT_MIN INT_MAX at ha hb
  refine ⟨⟨by omega, by omega⟩, ?_, ?_⟩
  · by_cases h : isInt (a + b) <;> simp [getSum, addInt, h]
  · intro h
    simp [getSum, addInt, h]

/-- Concrete instance of the amended C3 property, at `a = 2000000000` and `b = 2000000000`,
a pair of `int` values whose sum is not representable. -/
theorem getSum_defined_iff_witness :
    isInt 2000000000 ∧ isInt 2000000000 ∧
      ((-4294967296 ≤ (2000000000 : Int) + 2000000000 ∧
          (2000000000 : Int) + 2000000000 ≤ 4294967294) ∧
        (getSum 2000000000 2000000000 = some (2000000000 + 2000000000) ↔
          isInt (2000000000 + 2000000000)) ∧
        (¬ isInt (2000000000 + 2000000000) →
          getSum 2000000000 2000000000 = none)) :=
  ⟨by decide, by decide, getSum_defined_iff 2000000000 2000000000 (by decide) (by decide)⟩

/-! ## `main`: exit status, the array, the array reads -/

/-- C4: whatever values the out-of-bounds reads yield (every `oob`), `main`
executes its `return 0;` statement exactly once, comes to rest after it, and
its exit status is `0`; this holds for every amount of fuel of at least 33
statements. -/
theorem main_returns_zero (oob : Nat → Int) (fuel : Nat) (h : 33 ≤ fuel) :
    (visits Loc.ret (mainTrace oob fuel)).length = 1 ∧
      (mainRun oob fuel).pc = Loc.halted ∧
      (mainRun oob fuel).exit = some 0 := by
  rw [mainTrace_fuel oob fuel h, mainRun_fuel oob fuel h]
  exact ⟨rfl, rfl, rfl⟩

/-- Concrete instance of the C4 property, with out-of-bounds reads yielding
`-1, -2, -3, ...` and 40 units of fuel. -/
theorem main_returns_zero_witness :
    33 ≤ 40 ∧
      (visits Loc.ret (mainTrace (fun k => -(k : Int) - 1) 40)).length = 1 ∧
      (mainRun (fun k => -(k : Int) - 1) 40).pc = Loc.halted ∧
      (mainRun (fun k => -(k : Int) - 1) 40).exit = some 0 :=
  ⟨by decide, main_returns_zero (fun k => -(k : Int) - 1) 40 (by decide)⟩

/-- No statement other than the declaration of `v` changes `v`. -/
theorem step_v (divOn : Bool) (oob : Nat → Int) (s t : State)
    (hpc : s.pc ≠ Loc.declV) (hst : step divOn oob s = some t) : t.v = s.v := by
  unfold step at hst
  split at hst <;>
    first
    | contradiction
    | (simp only [Option.some.injEq] at hst; subst hst; rfl)
    | (simp only [Option.map_eq_some'] at hst; obtain ⟨_, _, rfl⟩ := hst; rfl)
    | skip
  · cases divOn
    · simp at hst; subst hst; rfl
    · simp only [if_true, Option.map_eq_some'] at hst
      obtain ⟨_, _, rfl⟩ := hst
      rfl
  · simp only [Option.bind_eq_some, Option.map_eq_some'] at hst
    obtain ⟨_, _, _, _, rfl⟩ := hst
    rfl

/-- Once declared, the array stays declared and holds `1, 2, 3, 4, 5`. -/
theorem step_declaredV (divOn : Bool) (oob : Nat → Int) (s t : State)
    (hP : declaredV s → s.v = [1, 2, 3, 4, 5])
    (hst : step divOn oob s = some t) :
    declaredV t → t.v = [1, 2, 3, 4, 5] := by
  intro ht
  by_cases hv : s.pc = Loc.declV
  · simp [step, hv] at hst
    subst hst
    rfl
  · rw [step_v divOn oob s t hv hst]
    apply hP
    refine ⟨?_, ?_, hv⟩
    · intro e
      simp [step, e] at hst
      subst hst
      simp [declaredV] at ht
    · intro e
      simp [step, e] at hst
      subst hst
      simp [declaredV] at ht

/-- The total index operation on the array `1, 2, 3, 4, 5` at a valid index. -/
theorem index_valid (k : Int) (h0 : 0 ≤ k) (h4 : k ≤ 4) :
    index [1, 2, 3, 4, 5] k = some (k + 1) := by
  interval_cases k <;> rfl

/-- C5: at every point of the execution of `main` at which the array `v` has
been declared, `v` has exactly 5 elements, it is the sequence `1, 2, 3, 4, 5`,
the element at every valid index `k` (from `0` to `4`) is `k + 1`, and the
statement executed next leaves `v` unchanged. -/
theorem v_is_one_to_five (oob : Nat → Int) (fuel : Nat) (s : State)
    (hs : s ∈ mainTrace oob fuel) (hd : declaredV s) :
    s.v.length = 5 ∧ s.v = [1, 2, 3, 4, 5] ∧
      (∀ k : Int, 0 ≤ k → k ≤ 4 → index s.v k = some (k + 1)) ∧
      (∀ t, step false oob s = some t → t.v = s.v) := by
  have hv : s.v = [1, 2, 3, 4, 5] :=
    trace_invariant false oob (fun u => declaredV u → u.v = [1, 2, 3, 4, 5])
      (step_declaredV false oob) fuel init (fun hi => absurd rfl hi.1) s hs hd
  refine ⟨by rw [hv]; rfl, hv, ?_, ?_⟩
  · intro k h0 h4
    rw [hv]
    exact index_valid k h0 h4
  · intro t ht
    exact step_v false oob s t hd.2.2 ht

/-- Concrete instance of the C5 property, at the final state of `main` with
out-of-bounds reads yielding `0`. -/
theorem v_is_one_to_five_witness :
    mainRun (fun _ => 0) 33 ∈ mainTrace (fun _ => 0) 33 ∧
      declaredV (mainRun (fun _ => 0) 33) ∧
      (mainRun (fun _ => 0) 33).v.length = 5 ∧
      (mainRun (fun _ => 0) 33).v = [1, 2, 3, 4, 5] ∧
      (∀ k : Int, 0 ≤ k → k ≤ 4 →
        index (mainRun (fun _ => 0) 33).v k = some (k + 1)) ∧
      (∀ t, step false (fun _ => 0) (mainRun (fun _ => 0) 33) = some t →
        t.v = (mainRun (fun _ => 0) 33).v) :=
  ⟨by decide, by decide,
    v_is_one_to_five (fun _ => 0) 33 (mainRun (fun _ => 0) 33) (by decide) (by decide)⟩

/-- C6: `main` performs exactly three array reads, at the indices `5` (the
literal `v[5]`), `5` (`v[i]` with `i = 5`) and `10` (in the first loop); the
total index operation yields no element for any of them, and none of them is at
a valid index: at no point of the execution has `main` read `v` at an index in
`0..4`. -/
theorem reads_all_past_end (oob : Nat → Int) (fuel : Nat) (h : 33 ≤ fuel) :
    (mainRun oob fuel).reads = [(5, none), (5, none), (10, none)] ∧
      (visits Loc.printV5 (mainTrace oob fuel)).length = 1 ∧
      (visits Loc.printVi (mainTrace oob fuel)).map State.i = [5] ∧
      (visits Loc.for1Read (mainTrace oob fuel)).map State.i = [10] ∧
      index [1, 2, 3, 4, 5] 5 = none ∧ index [1, 2, 3, 4, 5] 10 = none ∧
      (∀ s ∈ mainTrace oob fuel, ∀ r ∈ s.reads, ¬ validRead r ∧ r.2 = none) := by
  rw [mainTrace_fuel oob fuel h, mainRun_fuel oob fuel h]
  refine ⟨rfl, rfl, rfl, rfl, rfl, rfl, ?_⟩
  have hall : (mainTrace oob 33).all (fun s =>
      s.reads.all fun r => decide (¬ validRead r ∧ r.2 = none)) = true := rfl
  intro s hs r hr
  have h1 := List.all_eq_true.mp hall s hs
  exact of_decide_eq_true (List.all_eq_true.mp h1 r hr)

/-- Concrete instance of the C6 property, with out-of-bounds reads yielding
`7, 8, 9, ...` and 33 units of fuel. -/
theorem reads_all_past_end_witness :
    33 ≤ 33 ∧
      (mainRun oobSample 33).reads = [(5, none), (5, none), (10, none)] ∧
      (visits Loc.printV5 (mainTrace oobSample 33)).length = 1 ∧
      (visits Loc.printVi (mainTrace oobSample 33)).map State.i = [5] ∧
      (visits Loc.for1Read (mainTrace oobSample 33)).map State.i = [10] ∧
      index [1, 2, 3, 4, 5] 5 = none ∧ index [1, 2, 3, 4, 5] 10 = none ∧
      (∀ s ∈ mainTrace oobSample 33, ∀ r ∈ s.reads, ¬ validRead r ∧ r.2 = none) :=
  ⟨by decide, reads_all_past_end oobSample 33 (by decide)⟩

/-! ## `main`: the first loop and the commented-out division -/

/-- C7: in the first loop the body is executed exactly once; the array access
in it happens with `i = 10`; the increment is then executed once, from `i = 10`;
the condition `i < 5` is evaluated twice, with `i = 0` (true) and with `i = 11`
(false); the loop is left, with `i = 11`, for the statement after it. -/
theorem first_loop_overruns (oob : Nat → Int) (fuel : Nat) (h : 33 ≤ fuel) :
    (visits Loc.for1Body (mainTrace oob fuel)).map State.i = [0] ∧
      (visits Loc.for1Read (mainTrace oob fuel)).map State.i = [10] ∧
      (visits Loc.for1Incr (mainTrace oob fuel)).map State.i = [10] ∧
      (visits Loc.for1Test (mainTrace oob fuel)).map State.i = [0, 11] ∧
      (visits Loc.declX (mainTrace oob fuel)).map State.i = [11] := by
  rw [mainTrace_fuel oob fuel h]
  exact ⟨rfl, rfl, rfl, rfl, rfl⟩

/-- Concrete instance of the C7 property, with 50 units of fuel. -/
theorem first_loop_overruns_witness :
    33 ≤ 50 ∧
      (visits Loc.for1Body (mainTrace oobSample 50)).map State.i = [0] ∧
      (visits Loc.for1Read (mainTrace oobSample 50)).map State.i = [10] ∧
      (visits Loc.for1Incr (mainTrace oobSample 50)).map State.i = [10] ∧
      (visits Loc.for1Test (mainTrace oobSample 50)).map State.i = [0, 11] ∧
      (visits Loc.declX (mainTrace oobSample 50)).map State.i = [11] :=
  ⟨by decide, first_loop_overruns oobSample 50 (by decide)⟩

/-- The program as written executes no division. -/
theorem step_divs (oob : Nat → Int) (s t : State) (h0 : s.divs = 0)
    (hst : step false oob s = some t) : t.divs = 0 := by
  unfold step at hst
  split at hst <;>
    first
    | contradiction
    | (simp only [Option.some.injEq] at hst; subst hst; exact h0)
    | (simp only [Option.map_eq_some'] at hst; obtain ⟨_, _, rfl⟩ := hst; exact h0)
    | skip
  · simp at hst
    subst hst
    exact h0
  · simp only [Option.bind_eq_some, Option.map_eq_some'] at hst
    obtain ⟨_, _, _, _, rfl⟩ := hst
    exact h0

/-- C8: `x` is `3` before `x -= 3;` and `0` at the point of the commented-out
statement of line 46, which is reached exactly once; there the division
`3 / x` has no defined result (the divisor is zero), and with the statement
compiled in the execution cannot continue past it; `main` as written has
executed no division at any point of its execution. -/
theorem division_by_zero_commented_out (oob : Nat → Int) (fuel : Nat)
    (h : 33 ≤ fuel) :
    (visits Loc.subX (mainTrace oob fuel)).map State.x = [3] ∧
      (visits Loc.divX (mainTrace oob fuel)).map State.x = [0] ∧
      (∀ s ∈ visits Loc.divX (mainTrace oob fuel),
        divInt 3 s.x = none ∧ step true oob s = none) ∧
      (∀ s ∈ mainTrace oob fuel, s.divs = 0) := by
  refine ⟨?_, ?_, ?_, ?_⟩
  · rw [mainTrace_fuel oob fuel h]
    rfl
  · rw [mainTrace_fuel oob fuel h]
    rfl
  · rw [mainTrace_fuel oob fuel h]
    have hall : (visits Loc.divX (mainTrace oob 33)).all (fun s =>
        decide (divInt 3 s.x = none) && (step true oob s).isNone) = true := rfl
    intro s hs
    have h1 := List.all_eq_true.mp hall s hs
    simp only [Bool.and_eq_true, decide_eq_true_eq, Option.isNone_iff_eq_none] at h1
    exact h1
  · exact trace_invariant false oob (fun u => u.divs = 0) (step_divs oob) fuel init rfl

/-- Concrete instance of the C8 property, with 33 units of fuel. -/
theorem division_by_zero_commented_out_witness :
    33 ≤ 33 ∧
      (visits Loc.subX (mainTrace oobSample 33)).map State.x = [3] ∧
      (visits Loc.divX (mainTrace oobSample 33)).map State.x = [0] ∧
      (∀ s ∈ visits Loc.divX (mainTrace oobSample 33),
        divInt 3 s.x = none ∧ step true oobSample s = none) ∧
      (∀ s ∈ mainTrace oobSample 33, s.divs = 0) :=
  ⟨by decide, division_by_zero_commented_out oobSample 33 (by decide)⟩

/-! ## `main`: the second loop and the output -/

/-- Calling `getSum` with first argument `0` returns the second argument. -/
theorem getSum_zero (i : Int) (hi : isInt i) : getSum 0 i = some i := by
  simp [getSum, addInt, hi]

/-- C2: the accumulator `n` is `0` when the second loop starts, the update
`n += getSum(0, i)` is executed for `i = 1, 2, 3`, `n` is `6` when the loop has
ended, and the line printed last is `6`. -/
theorem accumulator_is_six (oob : Nat → Int) (fuel : Nat) (h : 33 ≤ fuel) :
    (visits Loc.for2Init (mainTrace oob fuel)).map State.n = [0] ∧
      (visits Loc.for2Add (mainTrace oob fuel)).map State.i = [1, 2, 3] ∧
      (visits Loc.printN (mainTrace oob fuel)).map State.n = [6] ∧
      (mainRun oob fuel).n = 6 ∧
      (mainRun oob fuel).out.getLast? = some (Line.num 6) := by
  rw [mainTrace_fuel oob fuel h, mainRun_fuel oob fuel h]
  exact ⟨rfl, rfl, rfl, rfl, rfl⟩

/-- Concrete instance of the C2 property, with 34 units of fuel. -/
theorem accumulator_is_six_witness :
    33 ≤ 34 ∧
      (visits Loc.for2Init (mainTrace oobSample 34)).map State.n = [0] ∧
      (visits Loc.for2Add (mainTrace oobSample 34)).map State.i = [1, 2, 3] ∧
      (visits Loc.printN (mainTrace oobSample 34)).map State.n = [6] ∧
      (mainRun oobSample 34).n = 6 ∧
      (mainRun oobSample 34).out.getLast? = some (Line.num 6) :=
  ⟨by decide, accumulator_is_six oobSample 34 (by decide)⟩

/-- C9: for any values `oob 0`, `oob 1`, `oob 2` yielded by the three
out-of-bounds reads (at `v[5]`, `v[5]` and `v[10]`), `main` writes exactly six
lines, in this order: `5` (the value of `b`), the three values read, the string
`end of "for"`, and `6`; the string is printed exactly once, in the iteration
of the second loop with `i = 3`. -/
theorem output_is_six_lines (oob : Nat → Int) (fuel : Nat) (h : 33 ≤ fuel) :
    (mainRun oob fuel).out =
        [Line.num 5, Line.num (oob 0), Line.num (oob 1), Line.num (oob 2),
          Line.text "end of \"for\"", Line.num 6] ∧
      (mainRun oob fuel).out.length = 6 ∧
      (visits Loc.printB (mainTrace oob fuel)).map State.b = [5] ∧
      (mainRun oob fuel).reads.map Prod.fst = [5, 5, 10] ∧
      (visits Loc.for2Print (mainTrace oob fuel)).map State.i = [3] ∧
      (mainRun oob fuel).out.count (Line.text "end of \"for\"") = 1 := by
  rw [mainTrace_fuel oob fuel h, mainRun_fuel oob fuel h]
  refine ⟨rfl, rfl, rfl, rfl, rfl, ?_⟩
  have e : (mainRun oob 33).out =
      [Line.num 5, Line.num (oob 0), Line.num (oob 1), Line.num (oob 2),
        Line.text "end of \"for\"", Line.num 6] := rfl
  rw [e]
  simp [List.count_cons]

/-- Concrete instance of the C9 property, with out-of-bounds reads yielding
`7, 8, 9` and 33 units of fuel. -/
theorem output_is_six_lines_witness :
    33 ≤ 33 ∧
      (mainRun oobSample 33).out =
        [Line.num 5, Line.num (oobSample 0), Line.num (oobSample 1),
          Line.num (oobSample 2), Line.text "end of \"for\"", Line.num 6] ∧
      (mainRun oobSample 33).out.length = 6 ∧
      (visits Loc.printB (mainTrace oobSample 33)).map State.b = [5] ∧
      (mainRun oobSample 33).reads.map Prod.fst = [5, 5, 10] ∧
      (visits Loc.for2Print (mainTrace oobSample 33)).map State.i = [3] ∧
      (mainRun oobSample 33).out.count (Line.text "end of \"for\"") = 1 :=
  ⟨by decide, output_is_six_lines oobSample 33 (by decide)⟩

/-- C10: the body of the second loop is executed exactly three times, with
`i = 1, 2, 3`; after the update of the iteration with index `i` the accumulator
is `i * (i + 1) / 2`, taking the values `1, 3, 6` in turn; the loop is left with
`i = 4`; and `getSum(0, i)` returns `i` for every `int` value `i`. -/
theorem second_loop_triangular (oob : Nat → Int) (fuel : Nat) (h : 33 ≤ fuel) :
    (visits Loc.for2Add (mainTrace oob fuel)).map State.i = [1, 2, 3] ∧
      (visits Loc.for2If (mainTrace oob fuel)).map (fun s => (s.i, s.n))
        = [(1, 1), (2, 3), (3, 6)] ∧
      (∀ s ∈ visits Loc.for2If (mainTrace oob fuel), s.n = s.i * (s.i + 1) / 2) ∧
      (visits Loc.for2Test (mainTrace oob fuel)).map State.i = [1, 2, 3, 4] ∧
      (visits Loc.printN (mainTrace oob fuel)).map State.i = [4] ∧
      (∀ i : Int, isInt i → getSum 0 i = some i) := by
  rw [mainTrace_fuel oob fuel h]
  refine ⟨rfl, rfl, ?_, rfl, rfl, getSum_zero⟩
  have hall : (visits Loc.for2If (mainTrace oob 33)).all (fun s =>
      decide (s.n = s.i * (s.i + 1) / 2)) = true := rfl
  intro s hs
  exact of_decide_eq_true (List.all_eq_true.mp hall s hs)

/-- Concrete instance of the C10 property, with 33 units of fuel. -/
theorem second_loop_triangular_witness :
    33 ≤ 33 ∧
      (visits Loc.for2Add (mainTrace oobSample 33)).map State.i = [1, 2, 3] ∧
      (visits Loc.for2If (mainTrace oobSample 33)).map (fun s => (s.i, s.n))
        = [(1, 1), (2, 3), (3, 6)] ∧
      (∀ s ∈ visits Loc.for2If (mainTrace oobSample 33),
        s.n = s.i * (s.i + 1) / 2) ∧
      (visits Loc.for2Test (mainTrace oobSample 33)).map State.i = [1, 2, 3, 4] ∧
      (visits Loc.printN (mainTrace oobSample 33)).map State.i = [4] ∧
      (∀ i : Int, isInt i → getSum 0 i = some i) :=
  ⟨by decide, second_loop_triangular oobSample 33 (by decide)⟩

end Example
